import Mathlib

/-!
Verification of the CollegeRecruiting matchmaker (src/app.py).

The Python program is shallowly embedded below: its string helpers, the
float parsing it relies on, the match-score formula, the CSV-field
normalization, the progressive filter pipeline and the mailto-link builder
are translated into executable Lean definitions over `String`, `List` and
`ℚ` (Python float arithmetic is modelled exactly over the rationals; the
decimal constants of the program are exact there).  Theorems about these
definitions settle the specification's claims.
-/

/-! ### Python string primitives -/

/-- Core of Python `str.strip()` on the character list of a string:
drop whitespace from the front, then from the back. -/
def stripList (l : List Char) : List Char :=
  ((l.dropWhile Char.isWhitespace).reverse.dropWhile Char.isWhitespace).reverse

/-- Python `str.strip()` (whitespace only, as used throughout app.py). -/
def pyStrip (s : String) : String :=
  ⟨stripList s.data⟩

/-- Python `str.lower()` (ASCII case folding, which covers every string
the program's lookup tables and claims exercise). -/
def pyLower (s : String) : String :=
  ⟨s.data.map Char.toLower⟩

/-- `_norm` from src/app.py line 32: `(s or "").strip().lower()`. -/
def _norm (s : String) : String :=
  pyLower (pyStrip s)

/-! ### Python `float()` on decimal strings -/

/-- Numeric value of a run of decimal digit characters. -/
def digitsToNat (ds : List Char) : Nat :=
  ds.foldl (fun a c => 10 * a + (c.toNat - 48)) 0

def takeDigits (cs : List Char) : List Char := cs.takeWhile Char.isDigit

def dropDigits (cs : List Char) : List Char := cs.dropWhile Char.isDigit

/-- Optional exponent suffix `e`/`E` `[+-]` digits of a Python float
literal, applied to an already-parsed mantissa held as a
numerator/denominator pair (the rational is only assembled at the very
end, so that concrete parses evaluate by kernel reduction). -/
def applyExp (mnum mden : Nat) (cs : List Char) : Option (Nat × Nat) :=
  match cs with
  | [] => some (mnum, mden)
  | c :: rest =>
    if c = 'e' ∨ c = 'E' then
      let sr : Bool × List Char :=
        match rest with
        | '+' :: r => (false, r)
        | '-' :: r => (true, r)
        | r => (false, r)
      let ed := takeDigits sr.2
      if ed.isEmpty ∨ ¬ (dropDigits sr.2).isEmpty then none
      else if sr.1 then some (mnum, mden * 10 ^ digitsToNat ed)
      else some (mnum * 10 ^ digitsToNat ed, mden)
    else none

/-- Python `float(s)` on a decimal string: optional sign, digits with an
optional fractional part (at least one digit overall), optional exponent;
the digits `A.B` denote the exact rational `(A·10^k + B) / 10^k`.
`none` models `float` raising `ValueError`.  (The exotic inputs Python
additionally accepts — `inf`, `nan`, underscore separators — are outside
the scope of every claim and are not modelled.) -/
def pyFloat? (s : String) : Option ℚ :=
  let cs := (pyStrip s).data
  let sr : Bool × List Char :=
    match cs with
    | '+' :: r => (false, r)
    | '-' :: r => (true, r)
    | r => (false, r)
  let ip := takeDigits sr.2
  let r1 := dropDigits sr.2
  let mant : Option (Nat × Nat × List Char) :=
    match r1 with
    | '.' :: r2 =>
      let fp := takeDigits r2
      if ip.isEmpty ∧ fp.isEmpty then none
      else some (digitsToNat ip * 10 ^ fp.length + digitsToNat fp, 10 ^ fp.length,
        dropDigits r2)
    | _ =>
      if ip.isEmpty then none
      else some (digitsToNat ip, 1, r1)
  match mant with
  | none => none
  | some (mnum, mden, rest) =>
    match applyExp mnum mden rest with
    | none => none
    | some (n, d) => some (mkRat (if sr.1 then -(n : Int) else (n : Int)) d)

/-! ### Python `round(x, 2)` -/

/-- Python `round(x, 2)`: round to the nearest multiple of 1/100.
Exact ties (which no claim exercises) are sent up here, where Python's
float rounding is to even. -/
def pyRound2 (x : ℚ) : ℚ :=
  ((round (x * 100) : ℤ) : ℚ) / 100

/-! ### Data model -/

/-- The player dict built from the submission form (src/app.py lines
300-308): every field is the raw (stripped) form string. -/
structure Player where
  name : String
  gpa : String
  sat : String
  region : String
  division : String
  major : String
  video_link : String
deriving DecidableEq

/-- One row produced by `load_colleges` (src/app.py lines 225-235):
`min_gpa` is the already-parsed optional GPA floor, every other field a
string. -/
structure ProgramRow where
  school_name : String
  division : String
  region : String
  city : String
  state : String
  coach_name : String
  coach_email : String
  min_gpa : Option ℚ
  majors : String
deriving DecidableEq

/-! ### Scoring (src/app.py lines 239-265) -/

/-- Python `s.split("|")` on the character list: cut at every pipe, no
collapsing of adjacent separators, `""` splits to `[""]`. -/
def splitPipe : List Char → List (List Char)
  | [] => [[]]
  | c :: rest =>
    match splitPipe rest with
    | t :: ts => if c = '|' then [] :: t :: ts else (c :: t) :: ts
    | [] => if c = '|' then [[], []] else [[c]]

/-- `row['majors'].split("|")` as strings. -/
def pySplitPipe (s : String) : List String :=
  (splitPipe s.data).map (fun l => (⟨l⟩ : String))

/-- The majors list of a row as the scorer sees it:
`[m.strip().lower() for m in row['majors'].split("|") if m.strip()]`. -/
def majorsOf (r : ProgramRow) : List String :=
  ((pySplitPipe r.majors).filter (fun m => pyStrip m != "")).map (fun m => _norm m)

/-- Shallow embedding of `compute_match_score` (src/app.py lines 239-265).
`player['gpa']` passes through `float(player.get('gpa') or 0)` with a
`try/except` defaulting to `0.0`, hence `(pyFloat? player.gpa).getD 0`;
a `None` GPA floor is treated as `0.0` (line 255). -/
def compute_match_score (player : Player) (row : ProgramRow) : ℚ :=
  let score : ℚ := 0
  let score := if player.division ≠ "" ∧ _norm row.division = _norm player.division then
      score + 35 / 100 else score
  let score := if player.region ≠ "" ∧ _norm row.region = _norm player.region then
      score + 25 / 100 else score
  let gpa : ℚ := (pyFloat? player.gpa).getD 0
  let min_gpa_num : ℚ := row.min_gpa.getD 0
  let score := if min_gpa_num ≤ gpa then
      score + 25 / 100 * (6 / 10 + 4 / 10 * max 0 (min (gpa - min_gpa_num) 1))
    else score
  let majors := majorsOf row
  let intended_major := _norm player.major
  let score := if intended_major ≠ "" ∧ intended_major ∈ majors then
      score + 15 / 100 else score
  pyRound2 (score * 100)

/-! Individual terms of the weighted sum, for stating and proving the
claims about the score. -/

def divTerm (p : Player) (r : ProgramRow) : ℚ :=
  if p.division ≠ "" ∧ _norm r.division = _norm p.division then 35 / 100 else 0

def regTerm (p : Player) (r : ProgramRow) : ℚ :=
  if p.region ≠ "" ∧ _norm r.region = _norm p.region then 25 / 100 else 0

/-- The GPA the scorer works with: the parsed submission GPA, `0` when the
field is empty or unparseable. -/
def effGpa (p : Player) : ℚ := (pyFloat? p.gpa).getD 0

/-- The GPA floor the scorer works with: `row['min_gpa']` with `None`
treated as `0`. -/
def gpaFloor (r : ProgramRow) : ℚ := r.min_gpa.getD 0

def acadTerm (p : Player) (r : ProgramRow) : ℚ :=
  if gpaFloor r ≤ effGpa p then
    25 / 100 * (6 / 10 + 4 / 10 * max 0 (min (effGpa p - gpaFloor r) 1))
  else 0

def majTerm (p : Player) (r : ProgramRow) : ℚ :=
  if _norm p.major ≠ "" ∧ _norm p.major ∈ majorsOf r then 15 / 100 else 0

/-- Academic contribution as the specification words it: `0` when the
player's GPA is strictly below the floor, otherwise
`0.25 * (0.6 + 0.4 * min(GPA - floor, 1.0))`. -/
def acadTermSpec (p : Player) (r : ProgramRow) : ℚ :=
  if effGpa p < gpaFloor r then 0
  else 25 / 100 * (6 / 10 + 4 / 10 * min (effGpa p - gpaFloor r) 1)

/-- The sequentially accumulated score of `compute_match_score` is the
weighted sum of the four independent terms. -/
theorem score_decomp (p : Player) (r : ProgramRow) :
    compute_match_score p r =
      pyRound2 ((divTerm p r + regTerm p r + acadTerm p r + majTerm p r) * 100) := by
  simp only [compute_match_score, divTerm, regTerm, acadTerm, majTerm, effGpa, gpaFloor]
  split_ifs <;> norm_num

/-! ### `_parse_min_gpa` (src/app.py lines 77-87) -/

/-- Leftmost match of the regex `(\d+(?:\.\d+)?)`: the first maximal digit
run, together with the fractional digit run when a dot followed by at
least one digit comes right after.  `none` when the text has no digit. -/
def firstNumber : List Char → Option (List Char × List Char)
  | [] => none
  | c :: rest =>
    if c.isDigit then
      let ip := takeDigits (c :: rest)
      let r1 := dropDigits (c :: rest)
      match r1 with
      | '.' :: r2 =>
        match r2 with
        | d :: _ => if d.isDigit then some (ip, takeDigits r2) else some (ip, [])
        | [] => some (ip, [])
      | _ => some (ip, [])
    else firstNumber rest

/-- Value of the matched decimal literal, exactly what Python's `float`
returns on `m.group(1)` (modelled exactly over ℚ). -/
def numVal (ip fp : List Char) : ℚ :=
  (digitsToNat ip : ℚ) + (digitsToNat fp : ℚ) / 10 ^ fp.length

/-- Shallow embedding of `_parse_min_gpa` (src/app.py lines 77-87):
regex-extract the first decimal number of the stripped cell text and keep
it only when it lies in `[0, 5]`. -/
def _parse_min_gpa (s : String) : Option ℚ :=
  match firstNumber (pyStrip s).data with
  | none => none
  | some (ip, fp) =>
    let g := numVal ip fp
    if 0 ≤ g ∧ g ≤ 5 then some g else none

/-! ### CSV loader pieces for division normalization (src/app.py 50-61, 163-170) -/

/-- Python dict access `row[c]` over the raw CSV row, modelled as an
association list with distinct keys. -/
def dictGet (row : List (String × String)) (k : String) : Option String :=
  (row.find? (fun kv => kv.1 == k)).map (fun kv => kv.2)

/-- Access into `{k.lower(): v for k, v in row.items()}`: on duplicate
lowered keys the later entry wins, hence the reverse search. -/
def dictGetCI (row : List (String × String)) (k : String) : Option String :=
  (row.reverse.find? (fun kv => pyLower kv.1 == pyLower k)).map (fun kv => kv.2)

/-- Shallow embedding of `_first_match` (src/app.py lines 50-61): first
candidate column with a truthy value, exact key match first, then
case-insensitive; the found value is returned stripped, otherwise `""`. -/
def _first_match (row : List (String × String)) (cands : List String) : String :=
  match cands.find? (fun c => (dictGet row c).getD "" != "") with
  | some c => pyStrip ((dictGet row c).getD "")
  | none =>
    match cands.find? (fun c => (dictGetCI row c).getD "" != "") with
    | some c => pyStrip ((dictGetCI row c).getD "")
    | none => ""

/-- `div_map` (src/app.py lines 164-169). -/
def divMap : List (String × String) :=
  [("ncaa d1", "D1"), ("ncaa division i", "D1"), ("division i", "D1"), ("d1", "D1"),
   ("div i", "D1"),
   ("ncaa d2", "D2"), ("ncaa division ii", "D2"), ("division ii", "D2"), ("d2", "D2"),
   ("div ii", "D2"),
   ("ncaa d3", "D3"), ("ncaa division iii", "D3"), ("division iii", "D3"), ("d3", "D3"),
   ("div iii", "D3"),
   ("naia", "NAIA"), ("juco", "JUCO"), ("njcaa", "JUCO")]

/-- Candidate columns for the division field (src/app.py line 163). -/
def divisionCands : List String :=
  ["division", "level", "ncaa_division", "assoc", "association", "league"]

/-- `div_map.get(_norm(division), (division or "").strip())`
(src/app.py line 170). -/
def normalizeDivision (d : String) : String :=
  (divMap.lookup (_norm d)).getD (pyStrip d)

/-- Division field of a loaded record: extraction then normalization
(src/app.py lines 163-170). -/
def loadDivision (row : List (String × String)) : String :=
  normalizeDivision (_first_match row divisionCands)

/-! ### Progressive filter pipeline (src/app.py lines 311-325) -/

/-- `if player["division"]: f_div = [...]; if f_div: rows = f_div`
(src/app.py lines 315-318). -/
def divisionStage (p : Player) (rows : List ProgramRow) : List ProgramRow :=
  if p.division ≠ "" then
    let f_div := rows.filter (fun r => _norm r.division == _norm p.division)
    if f_div.isEmpty then rows else f_div
  else rows

/-- `if player["region"]: f_reg = [...]; if f_reg: rows = f_reg`
(src/app.py lines 319-322). -/
def regionStage (p : Player) (rows : List ProgramRow) : List ProgramRow :=
  if p.region ≠ "" then
    let f_reg := rows.filter (fun r => _norm r.region == _norm p.region)
    if f_reg.isEmpty then rows else f_reg
  else rows

/-- The filter pipeline with its final fallback `if not rows: rows =
all_rows` (src/app.py lines 311-325). -/
def applyFilters (p : Player) (all_rows : List ProgramRow) : List ProgramRow :=
  let rows := divisionStage p all_rows
  let rows := regionStage p rows
  if rows.isEmpty then all_rows else rows

/-! ### Mailto link construction (src/app.py lines 330-353) -/

/-- UTF-8 bytes of a character, as values below 256. -/
def utf8Bytes (c : Char) : List Nat :=
  let n := c.toNat
  if n < 128 then [n]
  else if n < 2048 then [192 + n / 64, 128 + n % 64]
  else if n < 65536 then [224 + n / 4096, 128 + (n / 64) % 64, 128 + n % 64]
  else [240 + n / 262144, 128 + (n / 4096) % 64, 128 + (n / 64) % 64, 128 + n % 64]

/-- Uppercase hex digit, for percent escapes. -/
def hexDigit (n : Nat) : Char :=
  if n < 10 then Char.ofNat (48 + n) else Char.ofNat (55 + n)

/-- One byte under `urllib.parse.quote`: kept verbatim when alphanumeric
or one of `_ . - ~ /` (the default `safe='/'`), otherwise `%XX`. -/
def quoteByte (b : Nat) : String :=
  if (48 ≤ b ∧ b ≤ 57) ∨ (65 ≤ b ∧ b ≤ 90) ∨ (97 ≤ b ∧ b ≤ 122) ∨
      b ∈ [95, 46, 45, 126, 47] then
    String.singleton (Char.ofNat b)
  else
    "%" ++ String.singleton (hexDigit (b / 16)) ++ String.singleton (hexDigit (b % 16))

/-- `urllib.parse.quote` with its default `safe='/'`. -/
def pyQuote (s : String) : String :=
  String.join (s.data.map (fun c => String.join ((utf8Bytes c).map quoteByte)))

/-- The email subject f-string (src/app.py line 333). -/
def mailtoSubject (p : Player) (r : ProgramRow) : String :=
  "Recruiting Interest: " ++ p.name ++ " – " ++ r.school_name ++ " Baseball"

/-- The email body f-string (src/app.py lines 334-349), verbatim: note it
interpolates the school name, not the player name, after "My name is". -/
def mailtoBody (p : Player) (r : ProgramRow) : String :=
  "Coach " ++ r.coach_name ++ ",\n\nMy name is " ++ r.school_name ++ " (" ++ r.division
    ++ ") and would love to learn more about your program.\n\nPlayer Snapshot:\n• GPA: "
    ++ p.gpa ++ "\n• SAT: " ++ p.sat ++ "\n• Intended Major: " ++ p.major
    ++ "\n• Region Preference: " ++ p.region ++ "\n• Video/Hudl: " ++ p.video_link
    ++ "\n\nI would appreciate any guidance on your evaluation process and upcoming opportunities to be seen.\n\nThank you for your time,\n"
    ++ p.name ++ "\n"

/-- The try/except around `validate_email` and the mailto assembly
(src/app.py lines 330-353).  The third-party syntactic validator is
abstracted as the boolean predicate `valid`. -/
def buildMailto (valid : String → Bool) (p : Player) (r : ProgramRow) : Option String :=
  let email := pyStrip r.coach_email
  if valid email then
    some ("mailto:" ++ email ++ "?subject=" ++ pyQuote (mailtoSubject p r) ++ "&body="
      ++ pyQuote (mailtoBody p r))
  else none

/-! ### Result decoration, sorting, truncation (src/app.py lines 327-356) -/

/-- A row as rendered: the program record with its attached `match_score`
and optional `mailto` (src/app.py lines 328-353). -/
structure ResultRow where
  row : ProgramRow
  match_score : ℚ
  mailto : Option String
deriving DecidableEq

def decorate (valid : String → Bool) (p : Player) (rows : List ProgramRow) : List ResultRow :=
  rows.map (fun r => ⟨r, compute_match_score p r, buildMailto valid p r⟩)

/-- `rows.sort(key=lambda x: x.get('match_score', 0), reverse=True)`
(src/app.py line 355): stable sort, descending score. -/
def sortResults (l : List ResultRow) : List ResultRow :=
  l.mergeSort (fun a b => decide (b.match_score ≤ a.match_score))

/-- The full list the POST handler computes before rendering. -/
def resultsPipeline (valid : String → Bool) (p : Player) (all_rows : List ProgramRow) :
    List ResultRow :=
  sortResults (decorate valid p (applyFilters p all_rows))

/-- `results=rows[:200]` (src/app.py line 356): what the template
receives. -/
def renderedResults (valid : String → Bool) (p : Player) (all_rows : List ProgramRow) :
    List ResultRow :=
  (resultsPipeline valid p all_rows).take 200

/-! ### Helper lemmas about stripping -/

theorem dropWhile_idem (p : Char → Bool) (l : List Char) :
    (l.dropWhile p).dropWhile p = l.dropWhile p := by
  induction l with
  | nil => rfl
  | cons a t ih =>
    by_cases h : p a = true <;> simp [List.dropWhile_cons, h, ih]

theorem head_not_of_dropWhile {p : Char → Bool} {l : List Char} {a : Char} {t : List Char}
    (h : l.dropWhile p = a :: t) : p a = false := by
  induction l with
  | nil => simp at h
  | cons b m ih =>
    by_cases hb : p b = true
    · rw [List.dropWhile_cons, if_pos hb] at h
      exact ih h
    · rw [List.dropWhile_cons, if_neg hb] at h
      injection h with h1 _
      subst h1
      simpa using hb

theorem dropWhile_app (p : Char → Bool) (l₁ l₂ : List Char) :
    (l₁ ++ l₂).dropWhile p =
      if (l₁.dropWhile p).isEmpty then l₂.dropWhile p else l₁.dropWhile p ++ l₂ := by
  induction l₁ with
  | nil => simp
  | cons a t ih =>
    by_cases h : p a = true <;> simp [List.dropWhile_cons, h, ih]

/-- The right-trim half of `stripList`. -/
def trimRight (l : List Char) : List Char :=
  (l.reverse.dropWhile Char.isWhitespace).reverse

theorem trimRight_idem (l : List Char) : trimRight (trimRight l) = trimRight l := by
  unfold trimRight
  rw [List.reverse_reverse, dropWhile_idem]

theorem dropWhile_trimRight {x : List Char}
    (h : x.dropWhile Char.isWhitespace = x) :
    (trimRight x).dropWhile Char.isWhitespace = trimRight x := by
  cases x with
  | nil => rfl
  | cons a t =>
    have ha : a.isWhitespace = false := head_not_of_dropWhile h
    unfold trimRight
    rw [List.reverse_cons, dropWhile_app]
    by_cases he : (t.reverse.dropWhile Char.isWhitespace).isEmpty
    · rw [if_pos he]
      simp [List.dropWhile_cons, ha]
    · rw [if_neg he]
      rw [List.reverse_append]
      simp [List.dropWhile_cons, ha]

theorem stripList_idem (l : List Char) : stripList (stripList l) = stripList l := by
  have h2 : (stripList l).dropWhile Char.isWhitespace = stripList l :=
    dropWhile_trimRight (dropWhile_idem _ _)
  show trimRight ((stripList l).dropWhile Char.isWhitespace) = stripList l
  rw [h2]
  show trimRight (trimRight (l.dropWhile Char.isWhitespace)) = _
  rw [trimRight_idem]
  rfl

theorem pyStrip_idem (s : String) : pyStrip (pyStrip s) = pyStrip s := by
  show (⟨stripList (stripList s.data)⟩ : String) = ⟨stripList s.data⟩
  rw [stripList_idem]

/-! ### Helper lemmas about rounding -/

theorem pyRound2_mono {x y : ℚ} (h : x ≤ y) : pyRound2 x ≤ pyRound2 y := by
  unfold pyRound2
  have h1 : round (x * 100) ≤ round (y * 100) := by
    rw [round_eq, round_eq]
    exact Int.floor_le_floor (by linarith)
  have h2 : ((round (x * 100) : ℤ) : ℚ) ≤ ((round (y * 100) : ℤ) : ℚ) := by
    exact_mod_cast h1
  linarith

/-! ### Bounds on the four score terms -/

theorem divTerm_bounds (p : Player) (r : ProgramRow) :
    0 ≤ divTerm p r ∧ divTerm p r ≤ 35 / 100 := by
  unfold divTerm; split <;> norm_num

theorem regTerm_bounds (p : Player) (r : ProgramRow) :
    0 ≤ regTerm p r ∧ regTerm p r ≤ 25 / 100 := by
  unfold regTerm; split <;> norm_num

theorem acadTerm_bounds (p : Player) (r : ProgramRow) :
    0 ≤ acadTerm p r ∧ acadTerm p r ≤ 25 / 100 := by
  unfold acadTerm
  split
  · have h0 : 0 ≤ max 0 (min (effGpa p - gpaFloor r) 1) := le_max_left _ _
    have h1 : max 0 (min (effGpa p - gpaFloor r) 1) ≤ 1 :=
      max_le (by norm_num) (min_le_right _ _)
    constructor <;> nlinarith
  · norm_num

theorem majTerm_bounds (p : Player) (r : ProgramRow) :
    0 ≤ majTerm p r ∧ majTerm p r ≤ 15 / 100 := by
  unfold majTerm; split <;> norm_num

/-- C2: for every player submission and every program record, the value
returned by `compute_match_score` lies in the closed interval [0, 100]. -/
theorem compute_match_score_in_range (p : Player) (r : ProgramRow) :
    0 ≤ compute_match_score p r ∧ compute_match_score p r ≤ 100 := by
  obtain ⟨hd0, hd1⟩ := divTerm_bounds p r
  obtain ⟨hr0, hr1⟩ := regTerm_bounds p r
  obtain ⟨ha0, ha1⟩ := acadTerm_bounds p r
  obtain ⟨hm0, hm1⟩ := majTerm_bounds p r
  rw [score_decomp]
  constructor
  · have h := pyRound2_mono (show (0 : ℚ) ≤
      (divTerm p r + regTerm p r + acadTerm p r + majTerm p r) * 100 by nlinarith)
    have hz : pyRound2 0 = 0 := by norm_num [pyRound2]
    linarith
  · have h := pyRound2_mono (show
      (divTerm p r + regTerm p r + acadTerm p r + majTerm p r) * 100 ≤ 100 by nlinarith)
    have hh : pyRound2 100 = 100 := by norm_num [pyRound2, round_eq]
    linarith

/-! ### C3: the academic term -/

theorem acadTerm_eq_spec (p : Player) (r : ProgramRow) :
    acadTerm p r = acadTermSpec p r := by
  unfold acadTerm acadTermSpec
  rcases le_or_lt (gpaFloor r) (effGpa p) with h | h
  · rw [if_pos h, if_neg (not_lt.mpr h)]
    have hmx : max 0 (min (effGpa p - gpaFloor r) 1) = min (effGpa p - gpaFloor r) 1 :=
      max_eq_right (le_min (by linarith) (by norm_num))
    rw [hmx]
  · rw [if_neg (not_le.mpr h), if_pos h]

/-- C3: the academic term of `compute_match_score` contributes 0 whenever
the (effective, parsed) player GPA is strictly below the program floor,
and otherwise contributes `0.25 * (0.6 + 0.4 * min(GPA - floor, 1))`;
an absent `min_gpa` acts as floor 0. -/
theorem academic_term_spec (p : Player) (r : ProgramRow) :
    compute_match_score p r =
        pyRound2 ((divTerm p r + regTerm p r + acadTermSpec p r + majTerm p r) * 100) ∧
      (effGpa p < gpaFloor r → acadTermSpec p r = 0) ∧
      (gpaFloor r ≤ effGpa p →
        acadTermSpec p r = 25 / 100 * (6 / 10 + 4 / 10 * min (effGpa p - gpaFloor r) 1)) ∧
      (r.min_gpa = none → gpaFloor r = 0) := by
  refine ⟨?_, ?_, ?_, ?_⟩
  · rw [score_decomp, acadTerm_eq_spec]
  · intro h; unfold acadTermSpec; rw [if_pos h]
  · intro h; unfold acadTermSpec; rw [if_neg (not_lt.mpr h)]
  · intro h; unfold gpaFloor; rw [h]; rfl

def pC3 : Player := ⟨"Sam", "2.0", "", "", "", "", ""⟩

def rC3 : ProgramRow := ⟨"Test University", "D1", "West", "", "", "", "", some 3, ""⟩

theorem academic_term_spec_witness : acadTermSpec pC3 rC3 = 0 :=
  (academic_term_spec pC3 rC3).2.1 (by decide)

/-! ### C1: score of a full match with GPA exactly at the floor -/

theorem mem_majorsOf_ne_empty {m : String} {r : ProgramRow} (h : m ∈ majorsOf r) :
    m ≠ "" := by
  unfold majorsOf at h
  obtain ⟨a, ha, rfl⟩ := List.mem_map.mp h
  have h2 : (pyStrip a != "") = true := (List.mem_filter.mp ha).2
  have h3 : pyStrip a ≠ "" := by simpa using h2
  intro hcon
  apply h3
  have h4 : (pyStrip a).data.map Char.toLower = [] := congrArg String.data hcon
  have h5 : (pyStrip a).data = [] := List.map_eq_nil_iff.mp h4
  exact String.ext (h5.trans rfl)

/-- Helper: under an exact division and region match, a parsed GPA exactly
equal to the program's floor, and a matching intended major, every term is
at its at-floor value and the rounded score is 90. -/
theorem exact_match_score_90 (p : Player) (r : ProgramRow) (g : ℚ)
    (hdiv0 : p.division ≠ "") (hdiv : _norm r.division = _norm p.division)
    (hreg0 : p.region ≠ "") (hreg : _norm r.region = _norm p.region)
    (hg : pyFloat? p.gpa = some g) (hfloor : r.min_gpa = some g)
    (hmaj : _norm p.major ∈ majorsOf r) :
    compute_match_score p r = 90 := by
  have hmaj0 : _norm p.major ≠ "" := mem_majorsOf_ne_empty hmaj
  rw [score_decomp]
  have h1 : divTerm p r = 35 / 100 := by unfold divTerm; rw [if_pos ⟨hdiv0, hdiv⟩]
  have h2 : regTerm p r = 25 / 100 := by unfold regTerm; rw [if_pos ⟨hreg0, hreg⟩]
  have h3 : acadTerm p r = 15 / 100 := by
    have he : effGpa p = g := by unfold effGpa; rw [hg]; rfl
    have hf : gpaFloor r = g := by unfold gpaFloor; rw [hfloor]; rfl
    unfold acadTerm
    rw [he, hf, if_pos le_rfl, sub_self, min_eq_left (by norm_num : (0:ℚ) ≤ 1), max_self]
    norm_num
  have h4 : majTerm p r = 15 / 100 := by unfold majTerm; rw [if_pos ⟨hmaj0, hmaj⟩]
  rw [h1, h2, h3, h4]
  norm_num [pyRound2, round_eq]

def pC1 : Player := ⟨"Alex Doe", "3.0", "1200", "West", "D1", "Biology", ""⟩

def rC1 : ProgramRow :=
  ⟨"Example University", "D1", "West", "", "", "Coach C", "c@x.edu", some 3, "Biology|Math"⟩

/-- C1 counterexample: a submission whose division and region exactly
match the program's, whose GPA parses to exactly the program's floor and
whose intended major is in the majors list — yet `compute_match_score`
does not return 85 (it returns 90). -/
theorem exact_match_score_not_85 :
    pC1.division ≠ "" ∧ _norm rC1.division = _norm pC1.division ∧
      pC1.region ≠ "" ∧ _norm rC1.region = _norm pC1.region ∧
      pyFloat? pC1.gpa = some 3 ∧ rC1.min_gpa = some 3 ∧
      _norm pC1.major ∈ majorsOf rC1 ∧
      compute_match_score pC1 rC1 ≠ 85 := by
  refine ⟨by decide, by decide, by decide, by decide, by decide, by decide, by decide, ?_⟩
  have h := exact_match_score_90 pC1 rC1 3 (by decide) (by decide) (by decide) (by decide)
    (by decide) (by decide) (by decide)
  rw [h]
  norm_num

/-- C1 amended: for every player submission whose division exactly matches
the program's division (case-insensitively, both non-empty), whose region
exactly matches the program's region (both non-empty), whose GPA parses to
exactly the program's GPA floor, and whose normalized intended major is a
member of the program's majors list, `compute_match_score` returns 90.0
(not 85.0). -/
theorem exact_match_at_floor_score (p : Player) (r : ProgramRow) (g : ℚ)
    (hdiv0 : p.division ≠ "") (hdiv : _norm r.division = _norm p.division)
    (hreg0 : p.region ≠ "") (hreg : _norm r.region = _norm p.region)
    (hg : pyFloat? p.gpa = some g) (hfloor : r.min_gpa = some g)
    (hmaj : _norm p.major ∈ majorsOf r) :
    compute_match_score p r = 90 :=
  exact_match_score_90 p r g hdiv0 hdiv hreg0 hreg hg hfloor hmaj

theorem exact_match_at_floor_score_witness : compute_match_score pC1 rC1 = 90 :=
  exact_match_at_floor_score pC1 rC1 3 (by decide) (by decide) (by decide) (by decide)
    (by decide) (by decide) (by decide)

/-! ### C10: programs without a GPA floor always award the academic base -/

/-- C10: against a program whose `min_gpa` is absent, every submission
whose GPA field fails to parse or parses to a non-negative value scores at
least 15.0 — the academic base term is always awarded. -/
theorem no_floor_min_score (p : Player) (r : ProgramRow)
    (hfloor : r.min_gpa = none)
    (hgpa : pyFloat? p.gpa = none ∨ ∃ g, pyFloat? p.gpa = some g ∧ 0 ≤ g) :
    15 ≤ compute_match_score p r := by
  obtain ⟨hd0, hd1⟩ := divTerm_bounds p r
  obtain ⟨hr0, hr1⟩ := regTerm_bounds p r
  obtain ⟨hm0, hm1⟩ := majTerm_bounds p r
  have hf : gpaFloor r = 0 := by unfold gpaFloor; rw [hfloor]; rfl
  have hg : 0 ≤ effGpa p := by
    unfold effGpa
    rcases hgpa with h | ⟨g, h, hg2⟩
    · rw [h]; simp
    · rw [h]; simpa using hg2
  have ha : 15 / 100 ≤ acadTerm p r := by
    unfold acadTerm
    rw [if_pos (by rw [hf]; exact hg)]
    have h0 : 0 ≤ max 0 (min (effGpa p - gpaFloor r) 1) := le_max_left _ _
    nlinarith
  rw [score_decomp]
  have h := pyRound2_mono (show (15 : ℚ) ≤
    (divTerm p r + regTerm p r + acadTerm p r + majTerm p r) * 100 by nlinarith)
  have h15 : pyRound2 15 = 15 := by norm_num [pyRound2, round_eq]
  linarith

def pC10 : Player := ⟨"", "not a number", "", "", "", "", ""⟩

def rC10 : ProgramRow := ⟨"Some College", "D2", "South", "", "", "", "", none, ""⟩

theorem no_floor_min_score_witness : 15 ≤ compute_match_score pC10 rC10 :=
  no_floor_min_score pC10 rC10 (by rfl) (Or.inl (by decide))

/-! ### C4: the progressive filter pipeline -/

theorem isEmpty_false_of_ne_nil {α : Type} {l : List α} (h : l ≠ []) : l.isEmpty = false := by
  cases l with
  | nil => exact absurd rfl h
  | cons a t => rfl

/-- C4: the division filter is kept only when it leaves at least one
record; the region filter is then applied to the possibly-filtered set and
kept only when it leaves at least one record; an empty final set reverts
to the whole unfiltered dataset; in particular a division filter matching
zero records leaves the full set (subject to the same region rule). -/
theorem filter_pipeline_behavior (p : Player) (rows : List ProgramRow) :
    (p.division ≠ "" →
        rows.filter (fun r => _norm r.division == _norm p.division) ≠ [] →
        divisionStage p rows = rows.filter (fun r => _norm r.division == _norm p.division)) ∧
      (rows.filter (fun r => _norm r.division == _norm p.division) = [] →
        divisionStage p rows = rows) ∧
      (p.region ≠ "" →
        (divisionStage p rows).filter (fun r => _norm r.region == _norm p.region) ≠ [] →
        regionStage p (divisionStage p rows) =
          (divisionStage p rows).filter (fun r => _norm r.region == _norm p.region)) ∧
      ((divisionStage p rows).filter (fun r => _norm r.region == _norm p.region) = [] →
        regionStage p (divisionStage p rows) = divisionStage p rows) ∧
      (applyFilters p rows =
        if regionStage p (divisionStage p rows) = [] then rows
        else regionStage p (divisionStage p rows)) ∧
      (rows.filter (fun r => _norm r.division == _norm p.division) = [] →
        applyFilters p rows =
          if regionStage p rows = [] then rows else regionStage p rows) := by
  have hdiv_skip : rows.filter (fun r => _norm r.division == _norm p.division) = [] →
      divisionStage p rows = rows := by
    intro h2
    simp only [divisionStage]
    split
    · rw [h2]; simp
    · rfl
  refine ⟨?_, hdiv_skip, ?_, ?_, ?_, ?_⟩
  · intro h1 h2
    simp only [divisionStage]
    rw [if_pos h1, if_neg (by simp [isEmpty_false_of_ne_nil h2])]
  · intro h1 h2
    simp only [regionStage]
    rw [if_pos h1, if_neg (by simp [isEmpty_false_of_ne_nil h2])]
  · intro h2
    simp only [regionStage]
    split
    · rw [h2]; simp
    · rfl
  · simp only [applyFilters]
    by_cases h : regionStage p (divisionStage p rows) = []
    · rw [h]; simp
    · rw [if_neg (by simp [isEmpty_false_of_ne_nil h]), if_neg h]
  · intro h2
    simp only [applyFilters]
    rw [hdiv_skip h2]
    by_cases h : regionStage p rows = []
    · rw [h]; simp
    · rw [if_neg (by simp [isEmpty_false_of_ne_nil h]), if_neg h]

def pC4 : Player := ⟨"", "", "", "", "D9", "", ""⟩

def rowsC4 : List ProgramRow := [⟨"A College", "D3", "West", "", "", "", "", none, ""⟩]

theorem filter_pipeline_behavior_witness : applyFilters pC4 rowsC4 = rowsC4 := by
  have h := (filter_pipeline_behavior pC4 rowsC4).2.2.2.2.2 (by decide)
  rw [h]
  decide

/-! ### C6: division normalization in the loader -/

theorem lookup_mem_values {k v : String} (l : List (String × String))
    (h : l.lookup k = some v) : v ∈ l.map Prod.snd := by
  induction l with
  | nil => simp [List.lookup] at h
  | cons kv t ih =>
    obtain ⟨a, b⟩ := kv
    simp only [List.lookup] at h
    cases hka : (k == a) <;> rw [hka] at h <;> simp only [] at h
    · simpa using Or.inr (ih h)
    · injection h with hbv
      subst hbv
      simp

theorem divMap_values_enum :
    ∀ x ∈ divMap.map Prod.snd, x ∈ (["D1", "D2", "D3", "NAIA", "JUCO"] : List String) := by
  decide

theorem pyStrip_first_match (row : List (String × String)) (cands : List String) :
    pyStrip (_first_match row cands) = _first_match row cands := by
  unfold _first_match
  split
  · exact pyStrip_idem _
  · split
    · exact pyStrip_idem _
    · decide

/-- C6: for every raw CSV row, the loaded division value is one of the
five enum values D1/D2/D3/NAIA/JUCO whenever the normalized (stripped,
lowercased) extracted value is a recognized `div_map` alias, and is the
extracted value unchanged otherwise. -/
theorem division_normalized (row : List (String × String)) :
    ((divMap.lookup (_norm (_first_match row divisionCands))).isSome →
        loadDivision row ∈ (["D1", "D2", "D3", "NAIA", "JUCO"] : List String)) ∧
      (divMap.lookup (_norm (_first_match row divisionCands)) = none →
        loadDivision row = _first_match row divisionCands) := by
  constructor
  · intro h
    obtain ⟨v, hv⟩ := Option.isSome_iff_exists.mp h
    have hl : loadDivision row = v := by
      unfold loadDivision normalizeDivision
      rw [hv]
      rfl
    rw [hl]
    exact divMap_values_enum v (lookup_mem_values _ hv)
  · intro h
    unfold loadDivision normalizeDivision
    rw [h]
    simp only [Option.getD_none]
    exact pyStrip_first_match row divisionCands

theorem division_normalized_witness :
    loadDivision [("division", "NCAA D1")] ∈ (["D1", "D2", "D3", "NAIA", "JUCO"] : List String) :=
  (division_normalized [("division", "NCAA D1")]).1 (by decide)

/-! ### C7: `_parse_min_gpa` -/

theorem firstNumber_none_of_no_digit {cs : List Char}
    (h : ∀ c ∈ cs, ¬ c.isDigit = true) : firstNumber cs = none := by
  induction cs with
  | nil => rfl
  | cons c rest ih =>
    have hc : ¬ c.isDigit = true := h c (List.mem_cons_self c rest)
    unfold firstNumber
    rw [if_neg hc]
    exact ih (fun d hd => h d (List.mem_cons_of_mem c hd))

theorem mem_of_mem_dropWhile {p : Char → Bool} {l : List Char} {c : Char}
    (h : c ∈ l.dropWhile p) : c ∈ l := by
  induction l with
  | nil => simp at h
  | cons a t ih =>
    rw [List.dropWhile_cons] at h
    split at h
    · exact List.mem_cons_of_mem a (ih h)
    · exact h

theorem mem_of_mem_stripList {l : List Char} {c : Char} (h : c ∈ stripList l) : c ∈ l := by
  unfold stripList at h
  rw [List.mem_reverse] at h
  have h1 := mem_of_mem_dropWhile h
  rw [List.mem_reverse] at h1
  exact mem_of_mem_dropWhile h1

/-- C7: `_parse_min_gpa` returns `none` on text with no digit at all; on
text whose first regex-matched decimal number has value `g` it returns
`some g` exactly when `0 ≤ g ≤ 5` and `none` otherwise; and every value it
does return lies in `[0, 5]`.  Being a total function, it raises nothing. -/
theorem parse_min_gpa_behavior (s : String) :
    ((∀ c ∈ s.data, ¬ c.isDigit = true) → _parse_min_gpa s = none) ∧
      (∀ ip fp, firstNumber (pyStrip s).data = some (ip, fp) →
        _parse_min_gpa s =
          if 0 ≤ numVal ip fp ∧ numVal ip fp ≤ 5 then some (numVal ip fp) else none) ∧
      (∀ g, _parse_min_gpa s = some g → 0 ≤ g ∧ g ≤ 5) := by
  have hnone : firstNumber (pyStrip s).data = none → _parse_min_gpa s = none := by
    intro h
    unfold _parse_min_gpa
    rw [h]
  have hsome : ∀ ip fp, firstNumber (pyStrip s).data = some (ip, fp) →
      _parse_min_gpa s =
        if 0 ≤ numVal ip fp ∧ numVal ip fp ≤ 5 then some (numVal ip fp) else none := by
    intro ip fp h
    unfold _parse_min_gpa
    rw [h]
  refine ⟨?_, hsome, ?_⟩
  · intro h
    apply hnone
    apply firstNumber_none_of_no_digit
    intro c hc
    exact h c (mem_of_mem_stripList hc)
  · intro g h
    rcases hf : firstNumber (pyStrip s).data with - | ⟨ip, fp⟩
    · rw [hnone hf] at h
      exact absurd h (by simp)
    · rw [hsome ip fp hf] at h
      split at h
      · next hcond =>
          obtain rfl := Option.some.inj h
          exact hcond
      · simp at h

theorem parse_min_gpa_behavior_witness : _parse_min_gpa "no gpa listed" = none :=
  (parse_min_gpa_behavior "no gpa listed").1 (by decide)

/-! ### C5: mailto links exist exactly for validating coach emails -/

/-- C5: whatever the (syntactic) email validator decides, the record's
mailto link is `none` exactly when the stripped coach email fails
validation — in particular when the email is missing, since the empty
string never validates — and on success it is the `mailto:` URI with
URL-encoded subject and body. -/
theorem mailto_link_validation (valid : String → Bool) (p : Player) (r : ProgramRow) :
    (buildMailto valid p r = none ↔ valid (pyStrip r.coach_email) = false) ∧
      (valid (pyStrip r.coach_email) = true →
        buildMailto valid p r =
          some ("mailto:" ++ pyStrip r.coach_email ++ "?subject="
            ++ pyQuote (mailtoSubject p r) ++ "&body=" ++ pyQuote (mailtoBody p r))) ∧
      (r.coach_email = "" → valid "" = false → buildMailto valid p r = none) := by
  have hps : pyStrip "" = "" := by decide
  refine ⟨?_, ?_, ?_⟩
  · unfold buildMailto
    cases hv : valid (pyStrip r.coach_email) <;> simp [hv]
  · intro hv
    simp [buildMailto, hv]
  · intro he hv
    simp [buildMailto, he, hps, hv]

def validSimple : String → Bool := fun s => s != ""

def pC5 : Player := ⟨"Jo", "3.5", "1100", "West", "D2", "Biology", "http://v"⟩

def rC5 : ProgramRow :=
  ⟨"Valid University", "D2", "West", "", "", "Smith", "coach@valid.edu", some 3, "Biology"⟩

theorem mailto_link_validation_witness :
    buildMailto validSimple pC5 rC5 =
      some ("mailto:" ++ pyStrip rC5.coach_email ++ "?subject="
        ++ pyQuote (mailtoSubject pC5 rC5) ++ "&body=" ++ pyQuote (mailtoBody pC5 rC5)) :=
  (mailto_link_validation validSimple pC5 rC5).2.1 (by decide)

/-! ### C9: the email body interpolates the school name after "My name is" -/

theorem mailtoBody_split (p : Player) (r : ProgramRow) :
    mailtoBody p r =
      "Coach " ++ r.coach_name ++ ",\n\nMy name is " ++ r.school_name ++ " ("
        ++ r.division ++ ")"
        ++ (" and would love to learn more about your program.\n\nPlayer Snapshot:\n• GPA: "
          ++ p.gpa ++ "\n• SAT: " ++ p.sat ++ "\n• Intended Major: " ++ p.major
          ++ "\n• Region Preference: " ++ p.region ++ "\n• Video/Hudl: " ++ p.video_link
          ++ "\n\nI would appreciate any guidance on your evaluation process and upcoming opportunities to be seen.\n\n")
        ++ "Thank you for your time,\n" ++ p.name ++ "\n" := by
  unfold mailtoBody
  have h1 : (") and would love to learn more about your program.\n\nPlayer Snapshot:\n• GPA: " : String)
      = ")" ++ " and would love to learn more about your program.\n\nPlayer Snapshot:\n• GPA: " := by
    decide
  have h2 : ("\n\nI would appreciate any guidance on your evaluation process and upcoming opportunities to be seen.\n\nThank you for your time,\n" : String)
      = "\n\nI would appreciate any guidance on your evaluation process and upcoming opportunities to be seen.\n\n"
        ++ "Thank you for your time,\n" := by
    decide
  rw [h1, h2]
  simp only [String.append_assoc]

/-- C9: the generated email body places the program's school name (then
the division in parentheses) immediately after "My name is ", while the
player's submitted name enters the body only in the closing signature (the
middle of the body does not depend on the name) and the subject line. -/
theorem mailto_body_school_name (p : Player) (r : ProgramRow) :
    (∃ mid : String,
      mailtoBody p r =
          "Coach " ++ r.coach_name ++ ",\n\nMy name is " ++ r.school_name ++ " ("
            ++ r.division ++ ")" ++ mid ++ "Thank you for your time,\n" ++ p.name ++ "\n" ∧
        ∀ q : Player, q.gpa = p.gpa → q.sat = p.sat → q.major = p.major →
          q.region = p.region → q.video_link = p.video_link →
          mailtoBody q r =
            "Coach " ++ r.coach_name ++ ",\n\nMy name is " ++ r.school_name ++ " ("
              ++ r.division ++ ")" ++ mid ++ "Thank you for your time,\n" ++ q.name ++ "\n") ∧
      mailtoSubject p r =
        "Recruiting Interest: " ++ p.name ++ " – " ++ r.school_name ++ " Baseball" := by
  refine ⟨⟨" and would love to learn more about your program.\n\nPlayer Snapshot:\n• GPA: "
      ++ p.gpa ++ "\n• SAT: " ++ p.sat ++ "\n• Intended Major: " ++ p.major
      ++ "\n• Region Preference: " ++ p.region ++ "\n• Video/Hudl: " ++ p.video_link
      ++ "\n\nI would appreciate any guidance on your evaluation process and upcoming opportunities to be seen.\n\n",
      mailtoBody_split p r, ?_⟩, rfl⟩
  intro q h1 h2 h3 h4 h5
  rw [mailtoBody_split q r, h1, h2, h3, h4, h5]

def pC9 : Player := ⟨"Taylor", "3.2", "1300", "South", "D1", "History", "hudl.com/t"⟩

def rC9 : ProgramRow :=
  ⟨"Springfield College", "D3", "South", "", "", "Lee", "lee@sc.edu", none, "History"⟩

theorem mailto_body_school_name_witness :
    mailtoSubject pC9 rC9 =
      "Recruiting Interest: " ++ pC9.name ++ " – " ++ rC9.school_name ++ " Baseball" :=
  (mailto_body_school_name pC9 rC9).2

/-! ### C8: at most the first 200 sorted records are rendered -/

/-- C8: the rendered list is the 200-element prefix of the scored, sorted
result list: it never exceeds 200 records, it is an initial segment of the
full sorted list, and positions 200 and beyond are never rendered. -/
theorem rendered_truncated (valid : String → Bool) (p : Player) (rows : List ProgramRow) :
    (renderedResults valid p rows).length ≤ 200 ∧
      (∃ rest, resultsPipeline valid p rows = renderedResults valid p rows ++ rest) ∧
      ∀ i, 200 ≤ i → (renderedResults valid p rows).get? i = none := by
  have hlen : (renderedResults valid p rows).length ≤ 200 := by
    unfold renderedResults
    rw [List.length_take]
    exact min_le_left _ _
  refine ⟨hlen, ⟨(resultsPipeline valid p rows).drop 200, ?_⟩, ?_⟩
  · unfold renderedResults
    rw [List.take_append_drop]
  · intro i hi
    exact List.get?_eq_none.mpr (le_trans hlen hi)

theorem rendered_truncated_witness :
    (renderedResults validSimple pC5 ([] : List ProgramRow)).get? 250 = none :=
  (rendered_truncated validSimple pC5 []).2.2 250 (by norm_num)
